import Mathlib

/-!
Verification of the graph synthesis pipeline in
`src/client/src/components/chat/graph generator.py`.

The Python code is shallowly embedded: floats become rationals (`ℚ`),
node ids become naturals, the networkx graph object becomes an explicit
record of a node list, a directedness flag, an edge list and an
association list of edge weights.  Randomness is made explicit: every
value the code draws from a random source (the module-level `random`
generator, or the stream a seeded networkx generator derives from its
seed) is an input of the embedded function.
-/

namespace GraphGen

/-- Embedding of `GraphType` (the 13 model selectors). -/
inductive GraphType where
  | ERDOS_RENYI
  | BARABASI_ALBERT
  | WATTS_STROGATZ
  | COMPLETE
  | STAR
  | WHEEL
  | GRID
  | RANDOM_REGULAR
  | RANDOM_TREE
  | BIPARTITE
  | SCALE_FREE
  | GEOMETRIC
  | POWERLAW_CLUSTER
deriving DecidableEq, Repr

/-- Embedding of `WeightDistribution` (the 5 weight distribution selectors). -/
inductive WeightDistribution where
  | UNIFORM
  | NORMAL
  | EXPONENTIAL
  | POWERLAW
  | LOGNORMAL
deriving DecidableEq, Repr

/-- Embedding of the `GraphProperties` dataclass (floats as `ℚ`). -/
structure GraphProperties where
  num_nodes : ℕ := 20
  density : ℚ := 1/2
  is_directed : Bool := false
  is_weighted : Bool := false
  weight_range : ℚ × ℚ := (1, 10)
  weight_distribution : WeightDistribution := WeightDistribution.UNIFORM
  community_structure : Bool := false
  num_communities : ℕ := 3
  seed : Option ℕ := none
deriving DecidableEq, Repr

/-- Embedding of the networkx graph the pipeline manipulates: the node list,
the directedness flag, the edge list, and the per-edge `weight` attributes
(kept in sync with the `self.weights` dictionary by the code, so a single
association list represents both). -/
structure Graph where
  nodes : List ℕ
  directed : Bool
  edges : List (ℕ × ℕ)
  weights : List ((ℕ × ℕ) × ℚ)
deriving DecidableEq, Repr

/-- Dictionary lookup on the weights association list (Python `dict` access,
first match). -/
def wlookup (ws : List ((ℕ × ℕ) × ℚ)) (e : ℕ × ℕ) : Option ℚ :=
  (ws.find? (fun p => p.1 = e)).map (fun p => p.2)

/-- Python `int()` on a rational: truncation toward zero. -/
def pyInt (q : ℚ) : ℤ :=
  q.num.tdiv q.den

/-- Random stream a seeded networkx generator consumes.  Modelled from the
library contract: when `seed=s` is passed, the generator draws all its
randomness from a fresh `Random(s)` instance, so its output is a pure
function of the seed and the parameters; the concrete stream values are
irrelevant to the claims, only this functional dependence matters. -/
def seedStream (s : ℕ) : List ℚ :=
  (List.range 16).map (fun i => (((s + i * 2654435761) % 1000003 : ℕ) : ℚ) / 1000003)

/-- Edge set a randomized networkx generator returns.  Modelled from the
library contract: the edge set is a pure function of the node count, the
directedness, and the random stream the generator consumes; each stream
entry selects one candidate edge (endpoints reduced into `[0, n)`), kept if
it respects the simple-graph discipline of the model. -/
def decodeEdges (n : ℕ) (directed : Bool) (r : List ℚ) : List (ℕ × ℕ) :=
  if n = 0 then []
  else
    ((r.map (fun q => ((q.num.toNat / n) % n, q.num.toNat % n))).filter
      (fun p => if directed then decide (p.1 ≠ p.2) else decide (p.1 < p.2))).dedup

/-- Error a generator raises: the uncaught library exception
(`NetworkXError` and relatives) that aborts `generate_graph`.  Raising
generators: random-regular (degree/parity impossibility), Barabási–Albert
(`m ≥ n`), Watts–Strogatz (`k > n`), random-tree (`n = 0`) and
powerlaw-cluster (`m > n`). -/
inductive GenError where
  | GenerationError
deriving DecidableEq, Repr

/-- Embedding of `ErdősRényiGenerator.generate`: `nx.erdos_renyi_graph`
on `num_nodes` with probability `density`, directed when the flag is set. -/
def ErdosRenyiGenerator.generate (props : GraphProperties) (structR : List ℚ) : Graph :=
  { nodes := List.range props.num_nodes, directed := props.is_directed,
    edges := decodeEdges props.num_nodes props.is_directed structR, weights := [] }

/-- Attachment count `m = max(1, int(density * num_nodes / 2))` the
Barabási–Albert and powerlaw-cluster generators compute. -/
def baM (props : GraphProperties) : ℕ :=
  (max 1 (pyInt (props.density * props.num_nodes / 2))).toNat

/-- Embedding of `BarabásiAlbertGenerator.generate`:
`nx.barabasi_albert_graph(n, max(1, int(density*n/2)))`, always undirected,
nodes `0..n-1`; the library raises `NetworkXError` (uncaught by the code)
when `m ≥ n`. -/
def BarabasiAlbertGenerator.generate (props : GraphProperties) (structR : List ℚ) :
    Except GenError Graph :=
  if props.num_nodes ≤ baM props then Except.error GenError.GenerationError
  else Except.ok
    { nodes := List.range props.num_nodes, directed := false,
      edges := decodeEdges props.num_nodes false structR, weights := [] }

/-- Ring-lattice degree `k = max(2, int(density * num_nodes))` the
Watts–Strogatz generator computes. -/
def wsK (props : GraphProperties) : ℕ :=
  (max 2 (pyInt (props.density * props.num_nodes))).toNat

/-- Embedding of `WattsStrogatzGenerator.generate`:
`nx.watts_strogatz_graph(n, max(2, int(density*n)), 0.1)`, undirected,
nodes `0..n-1`; the library raises `NetworkXError` (uncaught by the code)
when `k > n`. -/
def WattsStrogatzGenerator.generate (props : GraphProperties) (structR : List ℚ) :
    Except GenError Graph :=
  if props.num_nodes < wsK props then Except.error GenError.GenerationError
  else Except.ok
    { nodes := List.range props.num_nodes, directed := false,
      edges := decodeEdges props.num_nodes false structR, weights := [] }

/-- All unordered pairs `u < v` over `n` nodes (`nx.complete_graph`). -/
def completeEdges (n : ℕ) : List (ℕ × ℕ) :=
  (List.range n).flatMap (fun u => ((List.range n).filter (fun v => u < v)).map (fun v => (u, v)))

/-- Embedding of `CompleteGraphGenerator.generate`: `nx.complete_graph(n)`. -/
def CompleteGraphGenerator.generate (props : GraphProperties) : Graph :=
  { nodes := List.range props.num_nodes, directed := false,
    edges := completeEdges props.num_nodes, weights := [] }

/-- Embedding of `StarGraphGenerator.generate`: `nx.star_graph(n - 1)`,
hub `0` with leaves `1..n-1`. -/
def StarGraphGenerator.generate (props : GraphProperties) : Graph :=
  { nodes := List.range props.num_nodes, directed := false,
    edges := (List.range (props.num_nodes - 1)).map (fun i => (0, i + 1)), weights := [] }

/-- Edges of `nx.wheel_graph(n)`: hub `0` joined to every node of the cycle
`1..n-1`, plus the cycle edges. -/
def wheelEdges (n : ℕ) : List (ℕ × ℕ) :=
  ((List.range (n - 1)).map (fun i => (0, i + 1))) ++
    (if 3 ≤ n then ((List.range (n - 2)).map (fun i => (i + 1, i + 2))) ++ [(n - 1, 1)] else [])

/-- Embedding of `WheelGraphGenerator.generate`: `nx.wheel_graph(n)`. -/
def WheelGraphGenerator.generate (props : GraphProperties) : Graph :=
  { nodes := List.range props.num_nodes, directed := false,
    edges := wheelEdges props.num_nodes, weights := [] }

/-- Lattice edges of `nx.grid_2d_graph(size, size)` after the relabeling
`(i, j) ↦ i*size + j` the generator applies (`nx.relabel_nodes` with the
enumeration of the row-major node order). -/
def gridEdges (size : ℕ) : List (ℕ × ℕ) :=
  (List.range size).flatMap (fun i => (List.range size).flatMap (fun j =>
    (if i + 1 < size then [(i * size + j, (i + 1) * size + j)] else []) ++
      (if j + 1 < size then [(i * size + j, i * size + j + 1)] else [])))

/-- Embedding of `GridGraphGenerator.generate`: `size = int(np.sqrt(n))`,
`nx.grid_2d_graph(size, size)` relabeled to ids `0..size*size-1`. -/
def GridGraphGenerator.generate (props : GraphProperties) : Graph :=
  let size := Nat.sqrt props.num_nodes
  { nodes := List.range (size * size), directed := false,
    edges := gridEdges size, weights := [] }

/-- Degree the random-regular generator requests:
`d = max(2, int(density * num_nodes))` (Python `int`, truncation). -/
def regularDegree (props : GraphProperties) : ℕ :=
  (max 2 (pyInt (props.density * props.num_nodes))).toNat

/-- Embedding of `RandomTreeGenerator.generate`: `nx.random_tree(n)`; the
library raises (uncaught by the code) on `n = 0` — no tree on zero
nodes. -/
def RandomTreeGenerator.generate (props : GraphProperties) (structR : List ℚ) :
    Except GenError Graph :=
  if props.num_nodes = 0 then Except.error GenError.GenerationError
  else Except.ok
    { nodes := List.range props.num_nodes, directed := false,
      edges := decodeEdges props.num_nodes false structR, weights := [] }

/-- Edges of `nx.complete_bipartite_graph(n1, n2)`: the two parts are
`0..n1-1` and `n1..n1+n2-1`, all cross pairs joined. -/
def bipartiteEdges (n1 n2 : ℕ) : List (ℕ × ℕ) :=
  (List.range n1).flatMap (fun u => (List.range n2).map (fun v => (u, n1 + v)))

/-- Embedding of `BipartiteGraphGenerator.generate`:
`nx.complete_bipartite_graph(n // 2, n - n // 2)`. -/
def BipartiteGraphGenerator.generate (props : GraphProperties) : Graph :=
  let n1 := props.num_nodes / 2
  let n2 := props.num_nodes - n1
  { nodes := List.range (n1 + n2), directed := false,
    edges := bipartiteEdges n1 n2, weights := [] }

/-- Canonical form of an undirected edge (smaller endpoint first), as
`nx.Graph.to_undirected` stores each edge once. -/
def canonPair (p : ℕ × ℕ) : ℕ × ℕ :=
  if p.1 ≤ p.2 then p else (p.2, p.1)

/-- Embedding of `nx.DiGraph.to_undirected`: directedness flag cleared,
arcs collapsed to canonical undirected edges, attributes carried over. -/
def toUndirectedG (g : Graph) : Graph :=
  { g with
    directed := false
    edges := (g.edges.map canonPair).dedup
    weights := g.weights.map (fun p => (canonPair p.1, p.2)) }

/-- Embedding of `nx.Graph.to_directed`: directedness flag set, each
undirected edge replaced by the two opposite arcs, attributes copied to
both. -/
def toDirectedG (g : Graph) : Graph :=
  { g with
    directed := true
    edges := (g.edges ++ g.edges.map Prod.swap).dedup
    weights := g.weights ++ g.weights.map (fun p => (Prod.swap p.1, p.2)) }

/-- Embedding of `ScaleFreeGraphGenerator.generate`: `nx.scale_free_graph`
starts from a fixed 3-node initial cycle and grows while fewer than `n`
nodes exist, so the directed result has `max(3, n)` nodes `0..max(3,n)-1`;
the generator projects it to undirected when the directedness flag is
unset. -/
def ScaleFreeGraphGenerator.generate (props : GraphProperties) (structR : List ℚ) : Graph :=
  let g : Graph :=
    { nodes := List.range (max 3 props.num_nodes), directed := true,
      edges := decodeEdges (max 3 props.num_nodes) true structR, weights := [] }
  if props.is_directed then g else toUndirectedG g

/-- Embedding of `GeometricGraphGenerator.generate`:
`nx.random_geometric_graph(n, density)`. -/
def GeometricGraphGenerator.generate (props : GraphProperties) (structR : List ℚ) : Graph :=
  { nodes := List.range props.num_nodes, directed := false,
    edges := decodeEdges props.num_nodes false structR, weights := [] }

/-- Embedding of `PowerlawClusterGenerator.generate`:
`nx.powerlaw_cluster_graph(n, max(1, int(density*n/2)), 0.1)`; the library
raises `NetworkXError` (uncaught by the code) when `m > n`. -/
def PowerlawClusterGenerator.generate (props : GraphProperties) (structR : List ℚ) :
    Except GenError Graph :=
  if props.num_nodes < baM props then Except.error GenError.GenerationError
  else Except.ok
    { nodes := List.range props.num_nodes, directed := false,
      edges := decodeEdges props.num_nodes false structR, weights := [] }

/-- Embedding of `RandomRegularGenerator.generate`:
`d = max(2, int(density * n))`, then `nx.random_regular_graph(d, n)`, which
raises (library contract, as the spec records) when `n * d` is odd or
`d ≥ n`, and otherwise returns a `d`-regular graph on `0..n-1`. -/
def RandomRegularGenerator.generate (props : GraphProperties) (structR : List ℚ) :
    Except GenError Graph :=
  if props.num_nodes * regularDegree props % 2 = 1 ∨ props.num_nodes ≤ regularDegree props
  then Except.error GenError.GenerationError
  else Except.ok
    { nodes := List.range props.num_nodes, directed := false,
      edges := decodeEdges props.num_nodes false structR, weights := [] }

/-- Dispatch on the model selector (`self.generators[self.graph_type]`
followed by `.generate(properties)` in `generate_graph`; an unknown
selector would fall back to the Erdős–Rényi generator, but every value of
the closed `GraphType` enum is present in the dictionary). -/
def dispatchGenerate (gt : GraphType) (props : GraphProperties) (structR : List ℚ) :
    Except GenError Graph :=
  match gt with
  | GraphType.ERDOS_RENYI => Except.ok (ErdosRenyiGenerator.generate props structR)
  | GraphType.BARABASI_ALBERT => BarabasiAlbertGenerator.generate props structR
  | GraphType.WATTS_STROGATZ => WattsStrogatzGenerator.generate props structR
  | GraphType.COMPLETE => Except.ok (CompleteGraphGenerator.generate props)
  | GraphType.STAR => Except.ok (StarGraphGenerator.generate props)
  | GraphType.WHEEL => Except.ok (WheelGraphGenerator.generate props)
  | GraphType.GRID => Except.ok (GridGraphGenerator.generate props)
  | GraphType.RANDOM_REGULAR => RandomRegularGenerator.generate props structR
  | GraphType.RANDOM_TREE => RandomTreeGenerator.generate props structR
  | GraphType.BIPARTITE => Except.ok (BipartiteGraphGenerator.generate props)
  | GraphType.SCALE_FREE => Except.ok (ScaleFreeGraphGenerator.generate props structR)
  | GraphType.GEOMETRIC => Except.ok (GeometricGraphGenerator.generate props structR)
  | GraphType.POWERLAW_CLUSTER => PowerlawClusterGenerator.generate props structR

/-- Condition under which the model generator the dispatch selects raises
a library error: random-regular on an odd `d·n` product or `d ≥ n`,
Barabási–Albert on `m ≥ n`, Watts–Strogatz on `k > n`, random-tree on
`n = 0`, powerlaw-cluster on `m > n`; the remaining eight generators never
raise. -/
def generatorFails (gt : GraphType) (props : GraphProperties) : Prop :=
  match gt with
  | GraphType.RANDOM_REGULAR =>
      props.num_nodes * regularDegree props % 2 = 1 ∨
        props.num_nodes ≤ regularDegree props
  | GraphType.BARABASI_ALBERT => props.num_nodes ≤ baM props
  | GraphType.WATTS_STROGATZ => props.num_nodes < wsK props
  | GraphType.RANDOM_TREE => props.num_nodes = 0
  | GraphType.POWERLAW_CLUSTER => props.num_nodes < baM props
  | _ => False

/-- Per-edge weight computation of `_add_weights`, one distribution case per
branch of the Python `if`/`elif` chain.  `r` is the value the branch draws
from the module-level `random` generator (`random.uniform(mn, mx)`,
`random.gauss(mean, std)`, `random.expovariate(1/scale)`,
`random.lognormvariate(mean, std)`, `random.paretovariate(2)` respectively);
the rest of the branch is the arithmetic the code applies to that draw. -/
def drawWeight (d : WeightDistribution) (mn mx : ℚ) (r : ℚ) : ℚ :=
  match d with
  | WeightDistribution.UNIFORM => r
  | WeightDistribution.NORMAL => max mn (min mx r)
  | WeightDistribution.EXPONENTIAL => min (mn + r) mx
  | WeightDistribution.LOGNORMAL => max mn (min mx r)
  | WeightDistribution.POWERLAW => min (mn + (r - 1) * (mx - mn) / 9) mx

/-- Support of the random draw each branch of `_add_weights` consumes, as
documented for the Python `random` library: `random.uniform(a, b)` lies
between `a` and `b`; `random.expovariate` is nonnegative;
`random.paretovariate(2)` is at least `1`; `random.gauss` and
`random.lognormvariate` are unrestricted here (the code clamps them). -/
def drawSupport (d : WeightDistribution) (mn mx r : ℚ) : Prop :=
  match d with
  | WeightDistribution.UNIFORM => mn ≤ r ∧ r ≤ mx
  | WeightDistribution.NORMAL => True
  | WeightDistribution.EXPONENTIAL => 0 ≤ r
  | WeightDistribution.LOGNORMAL => True
  | WeightDistribution.POWERLAW => 1 ≤ r

instance (d : WeightDistribution) (mn mx r : ℚ) : Decidable (drawSupport d mn mx r) := by
  unfold drawSupport
  cases d <;> infer_instance

/-- Embedding of `InteractiveGraphGenerator._add_weights`: the weights
dictionary is rebuilt from scratch (`self.weights = {}`), then one value is
drawn per edge and stored both as the edge attribute and in the dictionary.
`draws` is the sequence of values the per-edge random calls return. -/
def add_weights (props : GraphProperties) (draws : List ℚ) (g : Graph) : Graph :=
  let ws := (g.edges.zip draws).map
    (fun p => (p.1, drawWeight props.weight_distribution
      props.weight_range.1 props.weight_range.2 p.2))
  { g with weights := ws }

/-- Equality test `partition.get(u, -1) == partition.get(v, -2)` of
`_add_community_structure`: true exactly when both endpoints are present in
the partition with the same label (the two distinct defaults make a missing
endpoint compare unequal). -/
def sameLabel (part : List ℕ) (u v : ℕ) : Bool :=
  match part.get? u, part.get? v with
  | some a, some b => a == b
  | _, _ => false

/-- Reinforcement of one intra-community edge: the code doubles the edge
weight when the edge already carries a `weight` attribute
(`self.graph[u][v]['weight'] *= 2`) and otherwise sets it to `2.0`. -/
def updateWeight (ws : List ((ℕ × ℕ) × ℚ)) (e : ℕ × ℕ) : List ((ℕ × ℕ) × ℚ) :=
  match wlookup ws e with
  | some _ => ws.map (fun p => if p.1 = e then (p.1, 2 * p.2) else p)
  | none => ws ++ [(e, 2)]

/-- Loop `for u, v in self.graph.edges()` of the Louvain-success branch of
`_add_community_structure`: every edge whose endpoints share a label is
reinforced. -/
def reinforce (part : List ℕ) (g : Graph) : Graph :=
  let ws := g.edges.foldl
    (fun ws e => if sameLabel part e.1 e.2 then updateWeight ws e else ws) g.weights
  { g with weights := ws }

/-- Embedding of `InteractiveGraphGenerator._add_community_structure`.
Returns the updated graph and the `self.communities` mapping.  The Louvain
call `community_louvain.best_partition` draws on the global random source
and can raise on degenerate input, so its outcome is an explicit input:
`some part` is a successful partition (node `i` labelled `part[i]`),
`none` is the exception the bare `except:` swallows, after which the code
assigns node `i` (the `i`-th node of `self.graph.nodes()`) the label
`i % num_communities` and leaves all weights untouched. -/
def add_community_structure (numCom : ℕ) (louvain : Option (List ℕ)) (g : Graph)
    (prevCom : List (ℕ × ℕ)) : Graph × List (ℕ × ℕ) :=
  if numCom < 2 then (g, prevCom)
  else
    match louvain with
    | some part => (reinforce part g, (part.enum.map (fun p => (p.1, p.2))))
    | none => (g, g.nodes.enum.map (fun p => (p.2, p.1 % numCom)))

/-- Final step of `_apply_properties`: `to_directed` when the flag is set
but the graph is undirected, `to_undirected` when the flag is unset but the
graph is directed, unchanged otherwise. -/
def coerceDirection (flag : Bool) (g : Graph) : Graph :=
  if flag && !g.directed then toDirectedG g
  else if !flag && g.directed then toUndirectedG g
  else g

/-- Embedding of `InteractiveGraphGenerator._apply_properties`: weights if
requested, then community structure if requested, then coercion of the
graph to the configured directedness. -/
def apply_properties (props : GraphProperties) (globalR : List ℚ)
    (louvain : Option (List ℕ)) (g0 : Graph) : Graph × List (ℕ × ℕ) :=
  let g1 := if props.is_weighted then add_weights props globalR g0 else g0
  let pc := if props.community_structure
    then add_community_structure props.num_communities louvain g1 []
    else (g1, [])
  (coerceDirection props.is_directed pc.1, pc.2)

/-- Randomness the model generator consumes: the pure function of the seed
when one is set, the global random state otherwise (library contract for
`seed=None`). -/
def structStream (seed : Option ℕ) (globalR : List ℚ) : List ℚ :=
  match seed with
  | some s => seedStream s
  | none => globalR

/-- Embedding of `InteractiveGraphGenerator.generate_graph` (the pipeline
part: model dispatch followed by `_apply_properties`).  `globalR` is the
state of the module-level `random` generator at call time: the weight draws
come from it, and so does the structural randomness when `seed` is `None`
(an unseeded networkx generator uses the global source); when `seed` is a
number, the structural randomness is the pure function `seedStream` of that
number.  `louvain` is the outcome of the Louvain call (see
`add_community_structure`). -/
def generate_graph (gt : GraphType) (props : GraphProperties) (globalR : List ℚ)
    (louvain : Option (List ℕ)) : Except GenError (Graph × List (ℕ × ℕ)) :=
  match dispatchGenerate gt props (structStream props.seed globalR) with
  | Except.error e => Except.error e
  | Except.ok g => Except.ok (apply_properties props globalR louvain g)

/-- True exactly on a successful (non-raising) call. -/
def exceptOk {α : Type} (x : Except GenError α) : Bool :=
  match x with
  | Except.ok _ => true
  | Except.error _ => false

/-- Python `min(values)` over a nonempty collection: fold of `min` over the
tail with the head as accumulator. -/
def foldMin (l : List ℚ) (a : ℚ) : ℚ :=
  l.foldl min a

/-- Python `max(values)` over a nonempty collection. -/
def foldMax (l : List ℚ) (a : ℚ) : ℚ :=
  l.foldl max a

/-- Scaling and translation step of `normalize_positions` once the bounding
box is known: `graph_width = width - 370`, `graph_height = height - 40`,
`scale_x = graph_width / (max_x - min_x)` if the x-range is nonzero else
`1` (same for y), `scale = min(scale_x, scale_y) * 0.9`, and every point is
moved by `20 + (coord - center) * scale + graph_extent / 2`. -/
def normMap (width height minX maxX minY maxY : ℚ) (pos : List (ℕ × ℚ × ℚ)) :
    List (ℕ × ℚ × ℚ) :=
  let gw := width - 370
  let gh := height - 40
  let scaleX := if minX < maxX then gw / (maxX - minX) else 1
  let scaleY := if minY < maxY then gh / (maxY - minY) else 1
  let scale := min scaleX scaleY * (9/10)
  let centerX := (minX + maxX) / 2
  let centerY := (minY + maxY) / 2
  pos.map (fun q =>
    (q.1, 20 + (q.2.1 - centerX) * scale + gw / 2,
      20 + (q.2.2 - centerY) * scale + gh / 2))

/-- Embedding of `InteractiveGraphGenerator.normalize_positions`: an empty
position dictionary is returned unchanged; otherwise the bounding box of
the raw positions is computed with Python `min`/`max` and every position is
scaled and recentered by `normMap`. -/
def normalize_positions (width height : ℚ) (pos : List (ℕ × ℚ × ℚ)) :
    List (ℕ × ℚ × ℚ) :=
  match pos with
  | [] => []
  | p :: ps =>
    normMap width height
      (foldMin (ps.map (fun q => q.2.1)) p.2.1)
      (foldMax (ps.map (fun q => q.2.1)) p.2.1)
      (foldMin (ps.map (fun q => q.2.2)) p.2.2)
      (foldMax (ps.map (fun q => q.2.2)) p.2.2)
      (p :: ps)

/-- Effective node count of each model: `num_nodes` everywhere except the
grid model, whose `⌊√N⌋ × ⌊√N⌋` lattice has `⌊√N⌋²` nodes, and the
scale-free model, whose fixed 3-node initial cycle makes the count
`max(3, N)`. -/
def effectiveN (gt : GraphType) (n : ℕ) : ℕ :=
  match gt with
  | GraphType.GRID => Nat.sqrt n * Nat.sqrt n
  | GraphType.SCALE_FREE => max 3 n
  | _ => n

/-- Modelled from the spec: the rounding (`round(density·N)`) the spec
attributes to the random-regular degree formula, for comparison with the
code's truncation (`int(density·N)` in `regularDegree`).  Stated for the
non-tie arguments used below, where rounding is floor of the shifted
value. -/
def specRound (q : ℚ) : ℤ :=
  ⌊q + 1/2⌋

/-- Modelled from the spec: the degree `max(2, round(density·N))` the claim
ascribes to the random-regular model. -/
def specRegularDegree (props : GraphProperties) : ℕ :=
  (max 2 (specRound (props.density * props.num_nodes))).toNat

/-- Configuration with a seed, for the determinism claim. -/
def pSeeded : GraphProperties :=
  { num_nodes := 3, density := 1/2, seed := some 7 }

/-- Weighted 2-node configuration with a fixed seed: the weight drawn for
the single edge still comes from the global random source. -/
def pCexSeed : GraphProperties :=
  { num_nodes := 2, density := 1, is_weighted := true,
    weight_range := (1, 10),
    weight_distribution := WeightDistribution.UNIFORM, seed := some 0 }

/-- Configuration with an inverted weight range (`min = 5 > 1 = max`). -/
def pBadRange : GraphProperties :=
  { num_nodes := 3, density := 1/2, is_weighted := true, weight_range := (5, 1) }

/-- Random-regular request `N = 5`, `density = 0.6`: the code computes
degree `3`, and `3 · 5` is odd. -/
def p5rr : GraphProperties :=
  { num_nodes := 5, density := 3/5 }

/-- Random-regular request `N = 5`, `density = 0.56`: `density · N = 2.8`,
which the code truncates to degree `2` (even product, success) while the
spec's rounding gives degree `3` (odd product, predicted failure). -/
def p5cex : GraphProperties :=
  { num_nodes := 5, density := 14/25 }

/-- Single-node request: in-domain (`N ≥ 1`), yet the Barabási–Albert
generator computes `m = 1 ≥ 1 = N` and raises. -/
def pOne : GraphProperties :=
  { num_nodes := 1, density := 1/2 }

/-- Grid request with `N = 10` (not a perfect square). -/
def p10 : GraphProperties :=
  { num_nodes := 10 }

/-- Directed request on the (undirected) complete model. -/
def pDir : GraphProperties :=
  { num_nodes := 2, is_directed := true }

/-- Weighted 3-node path through node 0, with communities requested: under
the round-robin fallback with 2 communities, nodes 0 and 2 share label 0
while the edge `(0, 2)` keeps its weight `3`. -/
def gC3 : Graph :=
  { nodes := List.range 3, directed := false, edges := [(0, 1), (0, 2)],
    weights := [((0, 1), 3), ((0, 2), 3)] }

/-- Five isolated nodes, for the fallback-labelling witness. -/
def gFive : Graph :=
  { nodes := List.range 5, directed := false, edges := [], weights := [] }

/-- Adjacency in the undirected sense (`nx` neighbor relation of the graph
or of its undirected view): an edge joins `u` and `v` in either
orientation. -/
def adjP (g : Graph) (u v : ℕ) : Prop :=
  (u, v) ∈ g.edges ∨ (v, u) ∈ g.edges

instance (g : Graph) (u v : ℕ) : Decidable (adjP g u v) := by
  unfold adjP
  infer_instance

/-- One breadth-first expansion step of the set of visited nodes. -/
def nbrStep (g : Graph) (s : Finset ℕ) : Finset ℕ :=
  s ∪ (Finset.range g.nodes.length).filter (fun v => ∃ u ∈ s, adjP g u v)

/-- Nodes within `k` breadth-first steps of `src`. -/
def ballFrom (g : Graph) (src : ℕ) : ℕ → Finset ℕ
  | 0 => {src}
  | k + 1 => nbrStep g (ballFrom g src k)

/-- Embedding of `nx.is_connected` (library contract: true exactly when
every node is reachable from every other): breadth-first search from node
`0` saturates within `n` steps, so connectivity is `n` expansion steps
covering every node. -/
def connB (g : Graph) : Bool :=
  decide (∀ v ∈ Finset.range g.nodes.length, v ∈ ballFrom g 0 g.nodes.length)

/-- Shortest-path distance as breadth-first level of first reach. -/
def distB (g : Graph) (u v : ℕ) : ℕ :=
  (((List.range (g.nodes.length + 1)).find?
    (fun k => decide (v ∈ ballFrom g u k)))).getD 0

/-- Embedding of `nx.diameter` (library contract: greatest shortest-path
distance over all node pairs; the code only calls it on connected
graphs). -/
def diamB (g : Graph) : ℕ :=
  ((List.range g.nodes.length).flatMap (fun u =>
    (List.range g.nodes.length).map (fun v => distB g u v))).foldl max 0

/-- Fields of the `analyze_graph` info dictionary that the claims concern:
`diameter = none` embeds the string sentinel `"Not connected"`. -/
structure GraphInfo where
  number_of_nodes : ℕ
  number_of_edges : ℕ
  is_directed : Bool
  is_connected : Bool
  diameter : Option ℕ
deriving DecidableEq, Repr

/-- Undirected view the analysis uses: `self.graph.to_undirected()` when
the graph is directed, the graph itself otherwise. -/
def undirView (g : Graph) : Graph :=
  if g.directed then toUndirectedG g else g

/-- Embedding of `InteractiveGraphGenerator.analyze_graph`: connectivity is
computed on the undirected view; the diameter is computed (also on the
undirected view) only when the graph is connected, and otherwise holds the
`"Not connected"` sentinel. -/
def analyze_graph (g : Graph) : GraphInfo :=
  let ug := undirView g
  let conn := connB ug
  { number_of_nodes := g.nodes.length
    number_of_edges := g.edges.length
    is_directed := g.directed
    is_connected := conn
    diameter := if conn then some (diamB ug) else none }

/-- Mathematical connectivity of the (undirected-sense) graph: every node
is joined to node `0` by a chain of adjacencies. -/
def GConn (g : Graph) : Prop :=
  ∀ v < g.nodes.length, Relation.ReflTransGen (adjP g) 0 v

/-- Well-formedness every generator guarantees: edges join listed nodes. -/
def edgesInRange (g : Graph) : Prop :=
  ∀ e ∈ g.edges, e.1 < g.nodes.length ∧ e.2 < g.nodes.length

instance (g : Graph) : Decidable (edgesInRange g) := by
  unfold edgesInRange
  infer_instance

/-- Two disjoint 5-node stars (hubs 0 and 5): the concrete disconnected
graph named by the claim. -/
def twoStars : Graph :=
  { nodes := List.range 10, directed := false,
    edges := [(0, 1), (0, 2), (0, 3), (0, 4), (5, 6), (5, 7), (5, 8), (5, 9)],
    weights := [] }

theorem drawWeight_bounds (d : WeightDistribution) (mn mx r : ℚ)
    (hlt : mn < mx) (hs : drawSupport d mn mx r) :
    mn ≤ drawWeight d mn mx r ∧ drawWeight d mn mx r ≤ mx := by
  have hle : mn ≤ mx := le_of_lt hlt
  cases d with
  | UNIFORM => exact hs
  | NORMAL =>
      constructor
      · exact le_max_left _ _
      · exact max_le hle (min_le_left _ _)
  | EXPONENTIAL =>
      have hs' : (0:ℚ) ≤ r := hs
      constructor
      · exact le_min (by linarith) hle
      · exact min_le_right _ _
  | LOGNORMAL =>
      constructor
      · exact le_max_left _ _
      · exact max_le hle (min_le_left _ _)
  | POWERLAW =>
      have hs' : (1:ℚ) ≤ r := hs
      constructor
      · refine le_min ?_ hle
        have h1 : (0:ℚ) ≤ (r - 1) * (mx - mn) / 9 := by
          have hr : (0:ℚ) ≤ r - 1 := by linarith
          have hm : (0:ℚ) ≤ mx - mn := by linarith
          positivity
        linarith
      · exact min_le_right _ _

/-- C2: every weight `_add_weights` assigns satisfies `min ≤ w ≤ max`, for
every distribution kind and every range with `min < max`, given that each
random draw lies in the support its distribution guarantees. -/
theorem c2_weights_in_range (props : GraphProperties) (draws : List ℚ) (g : Graph)
    (hlt : props.weight_range.1 < props.weight_range.2)
    (hs : ∀ r ∈ draws, drawSupport props.weight_distribution
      props.weight_range.1 props.weight_range.2 r) :
    ∀ e w, (e, w) ∈ (add_weights props draws g).weights →
      props.weight_range.1 ≤ w ∧ w ≤ props.weight_range.2 := by
  intro e w hmem
  simp only [add_weights, List.mem_map] at hmem
  obtain ⟨p, hp, heq⟩ := hmem
  have hr : p.2 ∈ draws := List.of_mem_zip hp |>.2
  have hw : w = drawWeight props.weight_distribution
      props.weight_range.1 props.weight_range.2 p.2 := by
    have := congrArg Prod.snd heq
    simpa using this.symm
  subst hw
  exact drawWeight_bounds _ _ _ _ hlt (hs _ hr)

/-- Witness for C2 at a concrete input: powerlaw distribution on range
`[1, 10]` with draw `2` on the single edge of the 2-node complete graph. -/
theorem c2_weights_in_range_witness :
    ((1:ℚ) < 10 ∧ (∀ r ∈ [(2:ℚ)], drawSupport WeightDistribution.POWERLAW 1 10 r)) ∧
    (1:ℚ) ≤ 2 ∧ (2:ℚ) ≤ 10 := by
  have hsup : ∀ r ∈ [(2:ℚ)], drawSupport WeightDistribution.POWERLAW 1 10 r := by
    intro r hr
    simp only [List.mem_singleton] at hr
    subst hr
    exact (by norm_num : (1:ℚ) ≤ 2)
  refine ⟨⟨by norm_num, hsup⟩, ?_⟩
  have hmem : (((0:ℕ), (1:ℕ)), (2:ℚ)) ∈ (add_weights
      { num_nodes := 2, density := 1, is_directed := false, is_weighted := true,
        weight_range := (1, 10),
        weight_distribution := WeightDistribution.POWERLAW,
        community_structure := false, num_communities := 3, seed := none }
      [2]
      { nodes := [0, 1], directed := false, edges := [(0, 1)], weights := [] }).weights := by
    simp only [add_weights, drawWeight, List.zip_cons_cons, List.zip_nil_right,
      List.map_cons, List.map_nil, List.mem_singleton]
    norm_num
  have h := c2_weights_in_range
    { num_nodes := 2, density := 1, is_directed := false, is_weighted := true,
      weight_range := (1, 10),
      weight_distribution := WeightDistribution.POWERLAW,
      community_structure := false, num_communities := 3, seed := none }
    [2]
    { nodes := [0, 1], directed := false, edges := [(0, 1)], weights := [] }
    (by norm_num) hsup (0, 1) 2 hmem
  simpa using h

theorem subset_nbrStep (g : Graph) (s : Finset ℕ) : s ⊆ nbrStep g s :=
  Finset.subset_union_left

theorem ballFrom_mono_succ (g : Graph) (src k : ℕ) :
    ballFrom g src k ⊆ ballFrom g src (k + 1) :=
  subset_nbrStep g _

theorem ballFrom_mono (g : Graph) (src : ℕ) {k m : ℕ} (h : k ≤ m) :
    ballFrom g src k ⊆ ballFrom g src m := by
  induction m with
  | zero =>
      have hk : k = 0 := Nat.le_zero.mp h
      subst hk
      exact subset_rfl
  | succ m ih =>
      rcases Nat.lt_or_ge k (m + 1) with hlt | hge
      · exact subset_trans (ih (Nat.lt_succ_iff.mp hlt)) (ballFrom_mono_succ g src m)
      · have hk : k = m + 1 := le_antisymm h hge
        subst hk
        exact subset_rfl

theorem ballFrom_sound (g : Graph) (k : ℕ) :
    ∀ v ∈ ballFrom g 0 k, Relation.ReflTransGen (adjP g) 0 v := by
  induction k with
  | zero =>
      intro v hv
      simp only [ballFrom, Finset.mem_singleton] at hv
      subst hv
      exact Relation.ReflTransGen.refl
  | succ k ih =>
      intro v hv
      simp only [ballFrom, nbrStep, Finset.mem_union, Finset.mem_filter] at hv
      rcases hv with hv | ⟨_, u, hu, hadj⟩
      · exact ih v hv
      · exact Relation.ReflTransGen.tail (ih u hu) hadj

theorem ballFrom_subset_range (g : Graph) (h0 : 0 < g.nodes.length) (k : ℕ) :
    ballFrom g 0 k ⊆ Finset.range g.nodes.length := by
  induction k with
  | zero =>
      intro v hv
      simp only [ballFrom, Finset.mem_singleton] at hv
      subst hv
      exact Finset.mem_range.mpr h0
  | succ k ih =>
      intro v hv
      simp only [ballFrom, nbrStep, Finset.mem_union, Finset.mem_filter] at hv
      rcases hv with hv | ⟨hv, _⟩
      · exact ih hv
      · exact hv

theorem ballFrom_stab_propagates (g : Graph) (src k : ℕ)
    (h : ballFrom g src (k + 1) = ballFrom g src k) (m : ℕ) :
    ballFrom g src (k + m) = ballFrom g src k := by
  induction m with
  | zero => rfl
  | succ m ih =>
      have : ballFrom g src (k + m + 1) = nbrStep g (ballFrom g src (k + m)) := rfl
      rw [show k + (m + 1) = k + m + 1 from rfl, this, ih]
      exact h

theorem ballFrom_saturates (g : Graph) (h0 : 0 < g.nodes.length) :
    ballFrom g 0 (g.nodes.length + 1) = ballFrom g 0 g.nodes.length := by
  set n := g.nodes.length with hn
  by_contra hne
  have hstrict : ∀ k ≤ n, ballFrom g 0 k ⊂ ballFrom g 0 (k + 1) := by
    intro k hk
    refine Finset.ssubset_iff_subset_ne.mpr ⟨ballFrom_mono_succ g 0 k, ?_⟩
    intro heq
    apply hne
    have h1 : ballFrom g 0 (k + (n + 1 - k)) = ballFrom g 0 k :=
      ballFrom_stab_propagates g 0 k heq.symm _
    have h2 : ballFrom g 0 (k + (n - k)) = ballFrom g 0 k :=
      ballFrom_stab_propagates g 0 k heq.symm _
    have e1 : k + (n + 1 - k) = n + 1 := by omega
    have e2 : k + (n - k) = n := by omega
    rw [e1] at h1
    rw [e2] at h2
    rw [h1, h2]
  have hcard : ∀ k, k ≤ n + 1 → k + 1 ≤ (ballFrom g 0 k).card := by
    intro k
    induction k with
    | zero =>
        intro _
        simp [ballFrom]
    | succ k ih =>
        intro hk
        have hks : k ≤ n := by omega
        have hlt := Finset.card_lt_card (hstrict k hks)
        have := ih (by omega)
        omega
  have hle : (ballFrom g 0 (n + 1)).card ≤ n :=
    le_trans (Finset.card_le_card (ballFrom_subset_range g h0 (n + 1)))
      (by simp)
  have := hcard (n + 1) (le_refl _)
  omega

theorem ballFrom_complete (g : Graph) (h0 : 0 < g.nodes.length)
    (hE : edgesInRange g) {v : ℕ}
    (h : Relation.ReflTransGen (adjP g) 0 v) :
    v ∈ ballFrom g 0 g.nodes.length := by
  induction h with
  | refl =>
      exact ballFrom_mono g 0 (Nat.zero_le _) (by simp [ballFrom])
  | tail hab hbc ih =>
      rename_i b c
      have hc : c < g.nodes.length := by
        rcases hbc with he | he
        · exact (hE _ he).2
        · exact (hE _ he).1
      have hmem : c ∈ ballFrom g 0 (g.nodes.length + 1) := by
        simp only [ballFrom, nbrStep, Finset.mem_union, Finset.mem_filter]
        right
        exact ⟨Finset.mem_range.mpr hc, b, ih, hbc⟩
      rw [ballFrom_saturates g h0] at hmem
      exact hmem

theorem connB_iff (g : Graph) (h0 : 0 < g.nodes.length) (hE : edgesInRange g) :
    connB g = true ↔ GConn g := by
  unfold connB GConn
  rw [decide_eq_true_iff]
  constructor
  · intro h v hv
    exact ballFrom_sound g _ v (h v (Finset.mem_range.mpr hv))
  · intro h v hv
    exact ballFrom_complete g h0 hE (h v (Finset.mem_range.mp hv))

theorem edgesInRange_undirView (g : Graph) (hE : edgesInRange g) :
    edgesInRange (undirView g) := by
  unfold undirView
  split_ifs with h
  · intro e he
    simp only [toUndirectedG, List.mem_dedup, List.mem_map] at he
    obtain ⟨e0, he0, rfl⟩ := he
    have hb := hE e0 he0
    unfold canonPair
    split_ifs
    · exact hb
    · exact ⟨hb.2, hb.1⟩
  · exact hE

/-- C8: the analysis reports `is_connected = false` exactly on (truly)
disconnected graphs, and in that case and only that case the diameter
field holds the `"Not connected"` sentinel rather than a numeric value. -/
theorem c8_disconnected_diameter_sentinel (g : Graph)
    (h0 : 0 < g.nodes.length) (hE : edgesInRange g) :
    ((analyze_graph g).is_connected = false ↔ ¬ GConn (undirView g)) ∧
    ((analyze_graph g).diameter = Option.none ↔ ¬ GConn (undirView g)) := by
  have h0u : 0 < (undirView g).nodes.length := by
    unfold undirView toUndirectedG
    split_ifs <;> simpa using h0
  have hEu := edgesInRange_undirView g hE
  have hiff := connB_iff (undirView g) h0u hEu
  have hic : (analyze_graph g).is_connected = connB (undirView g) := rfl
  have hd : (analyze_graph g).diameter
      = (if connB (undirView g) = true then some (diamB (undirView g)) else none) := rfl
  rw [hic, hd]
  cases hc : connB (undirView g) with
  | false =>
      have hnc : ¬ GConn (undirView g) := by
        intro hg
        have hT := hiff.mpr hg
        rw [hc] at hT
        exact Bool.false_ne_true hT
      simp [hnc]
  | true =>
      have hcn : GConn (undirView g) := hiff.mp hc
      simp [hcn]

/-- Witness for C8: on the two disjoint stars the analysis computes
`is_connected = false` and the diameter field holds the sentinel. -/
theorem c8_disconnected_diameter_sentinel_witness :
    0 < twoStars.nodes.length ∧ edgesInRange twoStars ∧
    ¬ GConn (undirView twoStars) ∧
    (analyze_graph twoStars).diameter = Option.none := by
  have h := c8_disconnected_diameter_sentinel twoStars (by decide) (by decide)
  have hfalse : (analyze_graph twoStars).is_connected = false := by decide
  have hnc := h.1.mp hfalse
  exact ⟨by decide, by decide, hnc, h.2.mpr hnc⟩

theorem foldMin_le_init (l : List ℚ) (a : ℚ) : foldMin l a ≤ a := by
  induction l generalizing a with
  | nil => simp [foldMin]
  | cons x xs ih =>
      simp only [foldMin, List.foldl_cons] at *
      exact le_trans (ih (min a x)) (min_le_left _ _)

theorem foldMin_le_mem (l : List ℚ) (a : ℚ) : ∀ x ∈ l, foldMin l a ≤ x := by
  induction l generalizing a with
  | nil => simp
  | cons y ys ih =>
      intro x hx
      rcases List.mem_cons.mp hx with h | h
      · subst h
        simp only [foldMin, List.foldl_cons]
        exact le_trans (foldMin_le_init ys (min a x)) (min_le_right _ _)
      · simp only [foldMin, List.foldl_cons]
        exact ih (min a y) x h

theorem init_le_foldMax (l : List ℚ) (a : ℚ) : a ≤ foldMax l a := by
  induction l generalizing a with
  | nil => simp [foldMax]
  | cons x xs ih =>
      simp only [foldMax, List.foldl_cons] at *
      exact le_trans (le_max_left _ _) (ih (max a x))

theorem mem_le_foldMax (l : List ℚ) (a : ℚ) : ∀ x ∈ l, x ≤ foldMax l a := by
  induction l generalizing a with
  | nil => simp
  | cons y ys ih =>
      intro x hx
      rcases List.mem_cons.mp hx with h | h
      · subst h
        simp only [foldMax, List.foldl_cons]
        exact le_trans (le_max_right _ _) (init_le_foldMax ys (max a x))
      · simp only [foldMax, List.foldl_cons]
        exact ih (max a y) x h

theorem delta_bound (mn mx x s c : ℚ) (hmn : mn ≤ x) (hmx : x ≤ mx)
    (hs0 : 0 ≤ s) (hsc : s * (mx - mn) ≤ c) :
    -(c/2) ≤ (x - (mn + mx)/2) * s ∧ (x - (mn + mx)/2) * s ≤ c/2 := by
  have h1 : x - (mn + mx)/2 ≤ (mx - mn)/2 := by linarith
  have h2 : -((mx - mn)/2) ≤ x - (mn + mx)/2 := by linarith
  have h3 : (x - (mn + mx)/2) * s ≤ ((mx - mn)/2) * s := mul_le_mul_of_nonneg_right h1 hs0
  have h4 : (-((mx - mn)/2)) * s ≤ (x - (mn + mx)/2) * s := mul_le_mul_of_nonneg_right h2 hs0
  constructor
  · nlinarith
  · nlinarith

theorem scale_coord_bound (gw mn mx x sOther : ℚ) (hgw : 0 ≤ gw)
    (hmn : mn ≤ x) (hmx : x ≤ mx) (hsO : 0 ≤ sOther) :
    -((9/10) * gw / 2) ≤
      (x - (mn + mx)/2) * (min (if mn < mx then gw / (mx - mn) else 1) sOther * (9/10)) ∧
    (x - (mn + mx)/2) * (min (if mn < mx then gw / (mx - mn) else 1) sOther * (9/10)) ≤
      (9/10) * gw / 2 := by
  by_cases hc : mn < mx
  · have hrx : (0:ℚ) < mx - mn := by linarith
    have hsx0 : (0:ℚ) ≤ gw / (mx - mn) := div_nonneg hgw (le_of_lt hrx)
    rw [if_pos hc]
    have hs0 : (0:ℚ) ≤ min (gw / (mx - mn)) sOther * (9/10) :=
      mul_nonneg (le_min hsx0 hsO) (by norm_num)
    have hle : min (gw / (mx - mn)) sOther ≤ gw / (mx - mn) :=
      min_le_left _ _
    have hsc : (min (gw / (mx - mn)) sOther * (9/10)) * (mx - mn) ≤
        (9/10) * gw := by
      have h1 : (min (gw / (mx - mn)) sOther * (9/10)) * (mx - mn) ≤
          (gw / (mx - mn) * (9/10)) * (mx - mn) := by
        have h2 : min (gw / (mx - mn)) sOther * (9/10) ≤
            gw / (mx - mn) * (9/10) := by nlinarith
        exact mul_le_mul_of_nonneg_right h2 (le_of_lt hrx)
      have h3 : (gw / (mx - mn) * (9/10)) * (mx - mn) = (9/10) * gw := by
        field_simp
        ring
      linarith
    have hdb := delta_bound mn mx x _ _ hmn hmx hs0 hsc
    constructor
    · have := hdb.1
      linarith
    · have := hdb.2
      linarith
  · have hmxe : mx = mn := le_antisymm (not_lt.mp hc) (le_trans hmn hmx)
    have hx : x = mn := le_antisymm (hmxe ▸ hmx) hmn
    have hz : x - (mn + mx) / 2 = 0 := by
      rw [hmxe, hx]
      ring
    rw [hz, zero_mul]
    constructor
    · linarith
    · linarith

/-- C7: after the normalization pass every node position lies in the
viewport `[0, width] × [0, height]` (exact in the rational embedding),
provided the window leaves the drawing area nonnegative (`width ≥ 370`,
`height ≥ 40`, satisfied by the application's `1400 × 800` window). -/
theorem c7_normalized_positions_in_viewport (width height : ℚ)
    (pos : List (ℕ × ℚ × ℚ)) (hw : 370 ≤ width) (hh : 40 ≤ height) :
    ∀ q ∈ normalize_positions width height pos,
      0 ≤ q.2.1 ∧ q.2.1 ≤ width ∧ 0 ≤ q.2.2 ∧ q.2.2 ≤ height := by
  intro q hq
  match pos with
  | [] => simp [normalize_positions] at hq
  | p :: ps =>
    simp only [normalize_positions, normMap, List.mem_map] at hq
    obtain ⟨q0, hq0, rfl⟩ := hq
    have hgw : (0:ℚ) ≤ width - 370 := by linarith
    have hgh : (0:ℚ) ≤ height - 40 := by linarith
    set mnX := foldMin (ps.map (fun q => q.2.1)) p.2.1 with hmnX
    set mxX := foldMax (ps.map (fun q => q.2.1)) p.2.1 with hmxX
    set mnY := foldMin (ps.map (fun q => q.2.2)) p.2.2 with hmnY
    set mxY := foldMax (ps.map (fun q => q.2.2)) p.2.2 with hmxY
    have hxlo : mnX ≤ q0.2.1 := by
      rcases List.mem_cons.mp hq0 with h | h
      · rw [h]
        exact foldMin_le_init _ _
      · exact foldMin_le_mem _ _ _ (List.mem_map_of_mem _ h)
    have hxhi : q0.2.1 ≤ mxX := by
      rcases List.mem_cons.mp hq0 with h | h
      · rw [h]
        exact init_le_foldMax _ _
      · exact mem_le_foldMax _ _ _ (List.mem_map_of_mem _ h)
    have hylo : mnY ≤ q0.2.2 := by
      rcases List.mem_cons.mp hq0 with h | h
      · rw [h]
        exact foldMin_le_init _ _
      · exact foldMin_le_mem _ _ _ (List.mem_map_of_mem _ h)
    have hyhi : q0.2.2 ≤ mxY := by
      rcases List.mem_cons.mp hq0 with h | h
      · rw [h]
        exact init_le_foldMax _ _
      · exact mem_le_foldMax _ _ _ (List.mem_map_of_mem _ h)
    have hsY0 : (0:ℚ) ≤ (if mnY < mxY then (height - 40) / (mxY - mnY) else 1) := by
      split_ifs with h
      · exact div_nonneg hgh (by linarith)
      · norm_num
    have hsX0 : (0:ℚ) ≤ (if mnX < mxX then (width - 370) / (mxX - mnX) else 1) := by
      split_ifs with h
      · exact div_nonneg hgw (by linarith)
      · norm_num
    have hbx := scale_coord_bound (width - 370) mnX mxX q0.2.1
      (if mnY < mxY then (height - 40) / (mxY - mnY) else 1) hgw hxlo hxhi hsY0
    have hby := scale_coord_bound (height - 40) mnY mxY q0.2.2
      (if mnX < mxX then (width - 370) / (mxX - mnX) else 1) hgh hylo hyhi hsX0
    rw [min_comm] at hby
    refine ⟨?_, ?_, ?_, ?_⟩
    · have := hbx.1
      simp only
      linarith
    · have := hbx.2
      simp only
      linarith
    · have := hby.1
      simp only
      linarith
    · have := hby.2
      simp only
      linarith

/-- Witness for C7 at a concrete input: the `1400 × 800` window of the
application and raw positions `(0,0)` and `(1,1)`; node `0` is normalized
to `(193, 58)`, inside the viewport. -/
theorem c7_normalized_positions_in_viewport_witness :
    ((370:ℚ) ≤ 1400 ∧ (40:ℚ) ≤ 800) ∧
    (0 ≤ (193:ℚ) ∧ (193:ℚ) ≤ 1400 ∧ 0 ≤ (58:ℚ) ∧ (58:ℚ) ≤ 800) := by
  refine ⟨⟨by norm_num, by norm_num⟩, ?_⟩
  have hmem : ((0:ℕ), ((193:ℚ), (58:ℚ))) ∈
      normalize_positions 1400 800 [(0, (0, 0)), (1, (1, 1))] := by
    norm_num [normalize_positions, normMap, foldMin, foldMax]
  exact c7_normalized_positions_in_viewport 1400 800 _ (by norm_num) (by norm_num) _ hmem

/-- C9: every model produces node ids forming the contiguous range
`[0, N_eff)`; for the grid model `N_eff = ⌊√N⌋²` is the largest perfect
square at most `N` (any square `m²` bounded by `N` is bounded by it). -/
theorem c9_node_ids_contiguous (gt : GraphType) (props : GraphProperties)
    (structR : List ℚ) (g : Graph)
    (h : dispatchGenerate gt props structR = Except.ok g) :
    g.nodes = List.range (effectiveN gt props.num_nodes) ∧
    (gt = GraphType.GRID →
      effectiveN gt props.num_nodes ≤ props.num_nodes ∧
      ∀ m : ℕ, m * m ≤ props.num_nodes →
        m * m ≤ effectiveN gt props.num_nodes) := by
  constructor
  · cases gt with
    | COMPLETE =>
        simp only [dispatchGenerate, Except.ok.injEq] at h
        subst h
        rfl
    | STAR =>
        simp only [dispatchGenerate, Except.ok.injEq] at h
        subst h
        rfl
    | WHEEL =>
        simp only [dispatchGenerate, Except.ok.injEq] at h
        subst h
        rfl
    | GRID =>
        simp only [dispatchGenerate, Except.ok.injEq] at h
        subst h
        rfl
    | BIPARTITE =>
        simp only [dispatchGenerate, Except.ok.injEq] at h
        subst h
        show List.range (props.num_nodes / 2 + (props.num_nodes - props.num_nodes / 2))
          = List.range props.num_nodes
        congr 1
        omega
    | ERDOS_RENYI =>
        simp only [dispatchGenerate, Except.ok.injEq] at h
        subst h
        rfl
    | BARABASI_ALBERT =>
        unfold dispatchGenerate BarabasiAlbertGenerator.generate at h
        by_cases hc : props.num_nodes ≤ baM props
        · rw [if_pos hc] at h
          exact absurd h (by simp)
        · rw [if_neg hc] at h
          simp only [Except.ok.injEq] at h
          subst h
          rfl
    | WATTS_STROGATZ =>
        unfold dispatchGenerate WattsStrogatzGenerator.generate at h
        by_cases hc : props.num_nodes < wsK props
        · rw [if_pos hc] at h
          exact absurd h (by simp)
        · rw [if_neg hc] at h
          simp only [Except.ok.injEq] at h
          subst h
          rfl
    | RANDOM_TREE =>
        unfold dispatchGenerate RandomTreeGenerator.generate at h
        by_cases hc : props.num_nodes = 0
        · rw [if_pos hc] at h
          exact absurd h (by simp)
        · rw [if_neg hc] at h
          simp only [Except.ok.injEq] at h
          subst h
          rfl
    | GEOMETRIC =>
        simp only [dispatchGenerate, Except.ok.injEq] at h
        subst h
        rfl
    | POWERLAW_CLUSTER =>
        unfold dispatchGenerate PowerlawClusterGenerator.generate at h
        by_cases hc : props.num_nodes < baM props
        · rw [if_pos hc] at h
          exact absurd h (by simp)
        · rw [if_neg hc] at h
          simp only [Except.ok.injEq] at h
          subst h
          rfl
    | SCALE_FREE =>
        simp only [dispatchGenerate, ScaleFreeGraphGenerator.generate,
          Except.ok.injEq] at h
        subst h
        split_ifs <;> rfl
    | RANDOM_REGULAR =>
        unfold dispatchGenerate RandomRegularGenerator.generate at h
        by_cases hc : props.num_nodes * regularDegree props % 2 = 1 ∨
            props.num_nodes ≤ regularDegree props
        · rw [if_pos hc] at h
          exact absurd h (by simp)
        · rw [if_neg hc] at h
          simp only [Except.ok.injEq] at h
          subst h
          rfl
  · intro hgt
    subst hgt
    constructor
    · exact Nat.sqrt_le props.num_nodes
    · intro m hm
      have hle : m ≤ Nat.sqrt props.num_nodes := Nat.le_sqrt.mpr hm
      exact Nat.mul_le_mul hle hle

/-- Witness for C9 at a concrete input: the grid model with `N = 10`
produces nodes `0..8`, and `9 = 3²` is the largest square at most `10`. -/
theorem c9_node_ids_contiguous_witness :
    (GridGraphGenerator.generate p10).nodes = List.range (effectiveN GraphType.GRID 10) ∧
    effectiveN GraphType.GRID 10 ≤ 10 ∧
    3 * 3 ≤ effectiveN GraphType.GRID 10 ∧
    effectiveN GraphType.GRID 10 = 9 := by
  have hs : Nat.sqrt 10 = 3 := (Nat.eq_sqrt.mpr ⟨by norm_num, by norm_num⟩).symm
  have h9 : effectiveN GraphType.GRID 10 = 9 := by
    show Nat.sqrt 10 * Nat.sqrt 10 = 9
    rw [hs]
  have h := c9_node_ids_contiguous GraphType.GRID p10 []
    (GridGraphGenerator.generate p10) rfl
  exact ⟨h.1, (h.2 rfl).1, (h.2 rfl).2 3 (by norm_num : 3 * 3 ≤ 10), h9⟩

theorem coerceDirection_directed (flag : Bool) (g : Graph) :
    (coerceDirection flag g).directed = flag := by
  cases flag <;> cases hd : g.directed <;>
    simp [coerceDirection, toDirectedG, toUndirectedG, hd]

theorem apply_properties_directed (props : GraphProperties) (r : List ℚ)
    (l : Option (List ℕ)) (g : Graph) :
    (apply_properties props r l g).1.directed = props.is_directed := by
  unfold apply_properties
  exact coerceDirection_directed _ _

/-- C10: whatever directedness a model's generator produced, after
`_apply_properties` the graph's directedness equals the configured
`is_directed` flag, for every model and configuration. -/
theorem c10_directedness_matches_flag (gt : GraphType) (props : GraphProperties)
    (r : List ℚ) (l : Option (List ℕ)) (res : Graph × List (ℕ × ℕ))
    (h : generate_graph gt props r l = Except.ok res) :
    res.1.directed = props.is_directed := by
  unfold generate_graph at h
  cases hd : dispatchGenerate gt props (structStream props.seed r) with
  | error e =>
      rw [hd] at h
      exact absurd h (by simp)
  | ok g =>
      rw [hd] at h
      simp only [Except.ok.injEq] at h
      subst h
      exact apply_properties_directed props r l g

/-- Witness for C10 at a concrete input: a directed request on the
(undirected) complete model yields a directed graph. -/
theorem c10_directedness_matches_flag_witness :
    generate_graph GraphType.COMPLETE pDir [] none
      = Except.ok (apply_properties pDir [] none (CompleteGraphGenerator.generate pDir)) ∧
    (apply_properties pDir [] none (CompleteGraphGenerator.generate pDir)).1.directed
      = pDir.is_directed := by
  refine ⟨rfl, ?_⟩
  exact c10_directedness_matches_flag GraphType.COMPLETE pDir [] none _ rfl

theorem pyInt_eq_floor (q : ℚ) (h : 0 ≤ q) : pyInt q = ⌊q⌋ := by
  rw [Rat.floor_def]
  exact Int.tdiv_eq_ediv (Rat.num_nonneg.mpr h) (Int.natCast_nonneg _)

theorem regularDegree_p5rr : regularDegree p5rr = 3 := by
  have hq : p5rr.density * (p5rr.num_nodes : ℚ) = 3 := by
    norm_num [p5rr]
  unfold regularDegree
  rw [hq]
  decide

theorem regularDegree_p5cex : regularDegree p5cex = 2 := by
  have hq : p5cex.density * (p5cex.num_nodes : ℚ) = 14/5 := by
    norm_num [p5cex]
  have hfl : pyInt (14/5 : ℚ) = 2 := by
    rw [pyInt_eq_floor _ (by norm_num)]
    norm_num
  unfold regularDegree
  rw [hq, hfl]
  decide

theorem specRegularDegree_p5cex : specRegularDegree p5cex = 3 := by
  have hq : p5cex.density * (p5cex.num_nodes : ℚ) = 14/5 := by
    norm_num [p5cex]
  have hfl : ⌊(14/5 : ℚ) + 1/2⌋ = 3 := by
    norm_num
  unfold specRegularDegree specRound
  rw [hq, hfl]
  decide

/-- C5 (amended): with the code's truncated degree
`d = max(2, int(density·N))` — truncation, not the rounding the claim
states — the random-regular model fails with the generation error exactly
when `d·N` is odd or `d ≥ N`.  (The claim's further assertion that no
other model can fail is also wrong: four more generators raise library
errors on in-domain inputs — see `c4_no_config_validation`.) -/
theorem c5_random_regular_failure (props : GraphProperties) (r : List ℚ)
    (l : Option (List ℕ)) :
    generate_graph GraphType.RANDOM_REGULAR props r l
        = Except.error GenError.GenerationError
      ↔ (props.num_nodes * regularDegree props % 2 = 1 ∨
          props.num_nodes ≤ regularDegree props) := by
  unfold generate_graph dispatchGenerate RandomRegularGenerator.generate
  by_cases hc : props.num_nodes * regularDegree props % 2 = 1 ∨
      props.num_nodes ≤ regularDegree props
  · rw [if_pos hc]
    exact iff_of_true rfl hc
  · rw [if_neg hc]
    exact iff_of_false (by simp) hc

/-- Witness for C5 at the claim's concrete input: `N = 5`, `density = 0.6`
gives degree `3`; `3 · 5` is odd, so the call raises — while on the
even-degree configuration `p5cex` it succeeds, exercising both directions
of the characterization. -/
theorem c5_random_regular_failure_witness :
    generate_graph GraphType.RANDOM_REGULAR p5rr [] none
      = Except.error GenError.GenerationError ∧
    generate_graph GraphType.RANDOM_REGULAR p5cex [] none
      ≠ Except.error GenError.GenerationError := by
  constructor
  · refine (c5_random_regular_failure p5rr [] none).mpr ?_
    left
    rw [regularDegree_p5rr]
    decide
  · intro hcontra
    have hc := (c5_random_regular_failure p5cex [] none).mp hcontra
    rw [regularDegree_p5cex] at hc
    exact absurd hc (by decide)

/-- Counterexample for C5 as stated: at `N = 5`, `density = 0.56` the
spec's rounded degree is `round(2.8) = 3`, whose product with `N` is odd,
so the claim predicts a `GenerationError`; the code truncates to degree
`2` and the call succeeds. -/
theorem c5_counterexample_truncation_not_rounding :
    exceptOk (generate_graph GraphType.RANDOM_REGULAR p5cex [] none) = true ∧
    specRegularDegree p5cex = 3 ∧
    p5cex.num_nodes * specRegularDegree p5cex % 2 = 1 := by
  have hcond : ¬(p5cex.num_nodes * regularDegree p5cex % 2 = 1 ∨
      p5cex.num_nodes ≤ regularDegree p5cex) := by
    rw [regularDegree_p5cex]
    decide
  refine ⟨?_, specRegularDegree_p5cex, ?_⟩
  · unfold generate_graph dispatchGenerate RandomRegularGenerator.generate
    rw [if_neg hcond]
    rfl
  · rw [specRegularDegree_p5cex]
    decide

theorem baM_pOne : baM pOne = 1 := by
  have hq : pOne.density * (pOne.num_nodes : ℚ) / 2 = 1/4 := by
    norm_num [pOne]
  have hfl : pyInt (1/4 : ℚ) = 0 := by
    rw [pyInt_eq_floor _ (by norm_num)]
    norm_num
  unfold baM
  rw [hq, hfl]
  decide

/-- C4 (amended): `generate_graph` performs no configuration validation —
no `ConfigError` exists; an unrecognized model selector would silently
fall back to the Erdős–Rényi generator (every enum value is registered,
so the fallback is dead for enum inputs); a `min ≥ max` weight range is
never rejected (see the counterexample); the errors `generate_graph`
surfaces are exactly the generators' own uncaught library errors, as
characterized by `generatorFails`: random-regular on odd `d·N` or
`d ≥ N`, Barabási–Albert on `m ≥ N`, Watts–Strogatz on `k > N`,
random-tree on `N = 0`, powerlaw-cluster on `m > N`, and no other
model. -/
theorem c4_no_config_validation (gt : GraphType) (props : GraphProperties)
    (r : List ℚ) (l : Option (List ℕ)) :
    generate_graph gt props r l = Except.error GenError.GenerationError
      ↔ generatorFails gt props := by
  cases gt
  case RANDOM_REGULAR =>
      unfold generate_graph dispatchGenerate RandomRegularGenerator.generate
      by_cases hc : props.num_nodes * regularDegree props % 2 = 1 ∨
          props.num_nodes ≤ regularDegree props
      · rw [if_pos hc]
        exact iff_of_true rfl hc
      · rw [if_neg hc]
        exact iff_of_false (by simp) hc
  case BARABASI_ALBERT =>
      unfold generate_graph dispatchGenerate BarabasiAlbertGenerator.generate
      by_cases hc : props.num_nodes ≤ baM props
      · rw [if_pos hc]
        exact iff_of_true rfl hc
      · rw [if_neg hc]
        exact iff_of_false (by simp) hc
  case WATTS_STROGATZ =>
      unfold generate_graph dispatchGenerate WattsStrogatzGenerator.generate
      by_cases hc : props.num_nodes < wsK props
      · rw [if_pos hc]
        exact iff_of_true rfl hc
      · rw [if_neg hc]
        exact iff_of_false (by simp) hc
  case RANDOM_TREE =>
      unfold generate_graph dispatchGenerate RandomTreeGenerator.generate
      by_cases hc : props.num_nodes = 0
      · rw [if_pos hc]
        exact iff_of_true rfl hc
      · rw [if_neg hc]
        exact iff_of_false (by simp) hc
  case POWERLAW_CLUSTER =>
      unfold generate_graph dispatchGenerate PowerlawClusterGenerator.generate
      by_cases hc : props.num_nodes < baM props
      · rw [if_pos hc]
        exact iff_of_true rfl hc
      · rw [if_neg hc]
        exact iff_of_false (by simp) hc
  all_goals exact iff_of_false (fun h => Except.noConfusion h) (fun h => h)

/-- Witness for C4 (amended) at a concrete input: the in-domain request
`N = 1` (density `0.5`) makes the Barabási–Albert generator compute
`m = 1 ≥ 1 = N` and raise — an error source other than random-regular,
and not an up-front `ConfigError`. -/
theorem c4_no_config_validation_witness :
    generatorFails GraphType.BARABASI_ALBERT pOne ∧
    generate_graph GraphType.BARABASI_ALBERT pOne [] none
      = Except.error GenError.GenerationError := by
  have hfail : generatorFails GraphType.BARABASI_ALBERT pOne := by
    show pOne.num_nodes ≤ baM pOne
    rw [baM_pOne]
    decide
  exact ⟨hfail,
    (c4_no_config_validation GraphType.BARABASI_ALBERT pOne [] none).mpr hfail⟩

/-- Counterexample for C4 as stated: a configuration with
`min = 5 ≥ 1 = max` in the weight range is not rejected — `generate`
returns a graph, raising no error of any kind. -/
theorem c4_counterexample_no_rejection :
    pBadRange.weight_range.2 ≤ pBadRange.weight_range.1 ∧
    exceptOk (generate_graph GraphType.COMPLETE pBadRange [2, 2, 2] none) = true := by
  exact ⟨(by norm_num : (1:ℚ) ≤ 5), rfl⟩

theorem lookup_map_diag (f : ℕ → ℕ) (l : List ℕ) (hnd : l.Nodup) (i : ℕ)
    (hi : i ∈ l) :
    List.lookup i (l.map (fun j => (j, f j))) = some (f i) := by
  induction l with
  | nil => simp at hi
  | cons x xs ih =>
      rcases List.mem_cons.mp hi with h | h
      · subst h
        simp [List.lookup]
      · have hne : i ≠ x := by
          intro he
          exact (List.nodup_cons.mp hnd).1 (he ▸ h)
        have hb : (i == x) = false := beq_false_of_ne hne
        simp only [List.map_cons, List.lookup, hb]
        exact ih (List.nodup_cons.mp hnd).2 h

theorem zip_self_eq_map (l : List ℕ) : l.zip l = l.map (fun x => (x, x)) := by
  induction l with
  | nil => rfl
  | cons x xs ih => simp [ih]

/-- C6: when the Louvain call raises, the bare `except:` swallows the
failure (the embedded step is a total function) and every node is labelled
by its position: for node ids `0..n-1` in order, node `i` gets label
`i mod num_communities`, for any requested count at least `2`. -/
theorem c6_fallback_round_robin (g : Graph) (k : ℕ) (pc : List (ℕ × ℕ))
    (hk : 2 ≤ k) (hn : g.nodes = List.range g.nodes.length) (i : ℕ)
    (hi : i < g.nodes.length) :
    List.lookup i (add_community_structure k none g pc).2 = some (i % k) := by
  unfold add_community_structure
  rw [if_neg (by omega : ¬ k < 2)]
  show List.lookup i (g.nodes.enum.map (fun p => (p.2, p.1 % k))) = some (i % k)
  rw [hn, List.enum_eq_zip_range]
  simp only [List.length_range]
  rw [zip_self_eq_map, List.map_map]
  exact lookup_map_diag (fun j => j % k) _ (List.nodup_range _) i
    (List.mem_range.mpr hi)

/-- Witness for C6 at a concrete input: five nodes, three communities,
Louvain failure; node `4` is labelled `4 mod 3 = 1`. -/
theorem c6_fallback_round_robin_witness :
    (2 ≤ 3 ∧ gFive.nodes = List.range gFive.nodes.length ∧
      4 < gFive.nodes.length) ∧
    List.lookup 4 (add_community_structure 3 none gFive []).2 = some 1 := by
  refine ⟨⟨by norm_num, rfl, by decide⟩, ?_⟩
  exact c6_fallback_round_robin gFive 3 [] (by norm_num) rfl 4 (by decide)

theorem wlookup_nil (e : ℕ × ℕ) : wlookup [] e = none := rfl

theorem wlookup_cons (p : (ℕ × ℕ) × ℚ) (ps : List ((ℕ × ℕ) × ℚ)) (e : ℕ × ℕ) :
    wlookup (p :: ps) e = if p.1 = e then some p.2 else wlookup ps e := by
  unfold wlookup
  by_cases hp : p.1 = e
  · rw [List.find?_cons_of_pos _ (by simp [hp]), if_pos hp]
    rfl
  · rw [List.find?_cons_of_neg _ (by simp [hp]), if_neg hp]

theorem wlookup_map_double (ws : List ((ℕ × ℕ) × ℚ)) (e : ℕ × ℕ) (w : ℚ)
    (h : wlookup ws e = some w) :
    wlookup (ws.map (fun p => if p.1 = e then (p.1, 2 * p.2) else p)) e
      = some (2 * w) := by
  induction ws with
  | nil => simp [wlookup_nil] at h
  | cons p ps ih =>
      rw [wlookup_cons] at h
      rw [List.map_cons, wlookup_cons]
      by_cases hp : p.1 = e
      · rw [if_pos hp] at h
        have hw : p.2 = w := Option.some.inj h
        simp [hp, hw]
      · rw [if_neg hp] at h
        simp only [hp, if_false]
        exact ih h

theorem wlookup_append_insert (ws : List ((ℕ × ℕ) × ℚ)) (e : ℕ × ℕ)
    (h : wlookup ws e = none) :
    wlookup (ws ++ [(e, 2)]) e = some 2 := by
  induction ws with
  | nil =>
      rw [List.nil_append, wlookup_cons]
      simp
  | cons p ps ih =>
      rw [wlookup_cons] at h
      by_cases hp : p.1 = e
      · rw [if_pos hp] at h
        exact absurd h (by simp)
      · rw [if_neg hp] at h
        rw [List.cons_append, wlookup_cons, if_neg hp]
        exact ih h

theorem wlookup_map_double_ne (ws : List ((ℕ × ℕ) × ℚ)) (e k : ℕ × ℕ)
    (hne : k ≠ e) :
    wlookup (ws.map (fun p => if p.1 = e then (p.1, 2 * p.2) else p)) k
      = wlookup ws k := by
  induction ws with
  | nil => rfl
  | cons p ps ih =>
      have hek : ¬ e = k := fun h => hne h.symm
      rw [List.map_cons, wlookup_cons, wlookup_cons]
      by_cases hp : p.1 = e <;> by_cases hpk : p.1 = k
      · exact absurd (hpk ▸ hp) hne
      · simp [hp, hpk, hek, hne, ih]
      · simp [hp, hpk, hek, hne]
      · simp [hp, hpk, hek, hne, ih]

theorem wlookup_append_ne (ws : List ((ℕ × ℕ) × ℚ)) (e k : ℕ × ℕ)
    (hne : k ≠ e) :
    wlookup (ws ++ [(e, 2)]) k = wlookup ws k := by
  induction ws with
  | nil =>
      rw [List.nil_append, wlookup_cons]
      rw [if_neg (by exact fun h => hne h.symm)]
  | cons p ps ih =>
      rw [List.cons_append, wlookup_cons, wlookup_cons]
      by_cases hpk : p.1 = k
      · rw [if_pos hpk, if_pos hpk]
      · rw [if_neg hpk, if_neg hpk]
        exact ih

theorem wlookup_updateWeight_self (ws : List ((ℕ × ℕ) × ℚ)) (e : ℕ × ℕ) :
    wlookup (updateWeight ws e) e
      = (match wlookup ws e with
         | some w => some (2 * w)
         | none => some 2) := by
  unfold updateWeight
  cases hw : wlookup ws e with
  | some w => exact wlookup_map_double ws e w hw
  | none => exact wlookup_append_insert ws e hw

theorem wlookup_updateWeight_ne (ws : List ((ℕ × ℕ) × ℚ)) (e k : ℕ × ℕ)
    (hne : k ≠ e) :
    wlookup (updateWeight ws e) k = wlookup ws k := by
  unfold updateWeight
  cases hw : wlookup ws e with
  | some w => exact wlookup_map_double_ne ws e k hne
  | none => exact wlookup_append_ne ws e k hne

theorem reinforce_foldl_preserve (part : List ℕ) (xs : List (ℕ × ℕ))
    (ws : List ((ℕ × ℕ) × ℚ)) (e : ℕ × ℕ) (hnotin : e ∉ xs) :
    wlookup (xs.foldl (fun ws x => if sameLabel part x.1 x.2
      then updateWeight ws x else ws) ws) e = wlookup ws e := by
  induction xs generalizing ws with
  | nil => rfl
  | cons x xs ih =>
      have hne : e ≠ x := fun h => hnotin (h ▸ List.mem_cons_self x xs)
      rw [List.foldl_cons]
      rw [ih _ (fun h => hnotin (List.mem_cons_of_mem x h))]
      by_cases hs : sameLabel part x.1 x.2 = true
      · rw [if_pos hs]
        exact wlookup_updateWeight_ne ws x e hne
      · rw [if_neg hs]

theorem reinforce_foldl_lookup (part : List ℕ) (es : List (ℕ × ℕ))
    (ws : List ((ℕ × ℕ) × ℚ)) (e : ℕ × ℕ)
    (hnd : es.Nodup) (he : e ∈ es) (hs : sameLabel part e.1 e.2 = true) :
    wlookup (es.foldl (fun ws x => if sameLabel part x.1 x.2
      then updateWeight ws x else ws) ws) e
      = (match wlookup ws e with
         | some w => some (2 * w)
         | none => some 2) := by
  induction es generalizing ws with
  | nil => simp at he
  | cons x xs ih =>
      rw [List.foldl_cons]
      rcases List.mem_cons.mp he with h | h
      · subst h
        rw [if_pos hs]
        rw [reinforce_foldl_preserve part xs _ e (List.nodup_cons.mp hnd).1]
        exact wlookup_updateWeight_self ws e
      · have hxe : e ≠ x := fun hh => (List.nodup_cons.mp hnd).1 (hh ▸ h)
        have hstep : wlookup (if sameLabel part x.1 x.2
            then updateWeight ws x else ws) e = wlookup ws e := by
          by_cases hsx : sameLabel part x.1 x.2 = true
          · rw [if_pos hsx]
            exact wlookup_updateWeight_ne ws x e hxe
          · rw [if_neg hsx]
        rw [ih _ (List.nodup_cons.mp hnd).2 h, hstep]

/-- C3 (amended): when the Louvain optimizer succeeds, every edge whose
endpoints share a label has its weight doubled (or set to `2.0` if
previously unweighted), and a nonnegative pre-reinforcement weight never
decreases; when the optimizer fails, the fallback assigns round-robin
labels but leaves the graph — weights included — completely untouched, so
no reinforcement happens on that path. -/
theorem c3_intra_community_reinforcement (k : ℕ) (part : List ℕ) (g : Graph)
    (pc : List (ℕ × ℕ)) (u v : ℕ) (hk : 2 ≤ k) :
    (g.edges.Nodup → (u, v) ∈ g.edges → sameLabel part u v = true →
      wlookup (add_community_structure k (some part) g pc).1.weights (u, v)
        = (match wlookup g.weights (u, v) with
           | some w => some (2 * w)
           | none => some 2)) ∧
    ((add_community_structure k none g pc).1 = g) ∧
    (∀ w : ℚ, g.edges.Nodup → (u, v) ∈ g.edges → sameLabel part u v = true →
      wlookup g.weights (u, v) = some w → 0 ≤ w →
      wlookup (add_community_structure k (some part) g pc).1.weights (u, v)
        = some (2 * w) ∧ w ≤ 2 * w) := by
  have hmain : ∀ (_ : g.edges.Nodup) (_ : (u, v) ∈ g.edges)
      (_ : sameLabel part u v = true),
      wlookup (add_community_structure k (some part) g pc).1.weights (u, v)
        = (match wlookup g.weights (u, v) with
           | some w => some (2 * w)
           | none => some 2) := by
    intro hnd hmem hsame
    unfold add_community_structure
    rw [if_neg (by omega : ¬ k < 2)]
    show wlookup (reinforce part g).weights (u, v) = _
    unfold reinforce
    exact reinforce_foldl_lookup part g.edges g.weights (u, v) hnd hmem hsame
  refine ⟨hmain, ?_, ?_⟩
  · unfold add_community_structure
    rw [if_neg (by omega : ¬ k < 2)]
  · intro w hnd hmem hsame hw h0
    have hres := hmain hnd hmem hsame
    rw [hw] at hres
    exact ⟨hres, by linarith⟩

/-- Witness for C3 (amended) at a concrete input: on the weighted path
graph `gC3` with partition `[0, 1, 0]`, the intra-community edge `(0, 2)`
of weight `3` becomes `6`, and `3 ≤ 6`. -/
theorem c3_intra_community_reinforcement_witness :
    ((2:ℕ) ≤ 2 ∧ gC3.edges.Nodup ∧ ((0:ℕ), (2:ℕ)) ∈ gC3.edges ∧
      sameLabel [0, 1, 0] 0 2 = true ∧
      wlookup gC3.weights (0, 2) = some 3 ∧ (0:ℚ) ≤ 3) ∧
    wlookup (add_community_structure 2 (some [0, 1, 0]) gC3 []).1.weights (0, 2)
      = some (2 * 3) ∧ (3:ℚ) ≤ 2 * 3 := by
  refine ⟨⟨le_refl 2, by decide, by decide, by decide, rfl, by norm_num⟩, ?_⟩
  exact (c3_intra_community_reinforcement 2 [0, 1, 0] gC3 [] 0 2
    (le_refl 2)).2.2 3 (by decide) (by decide) (by decide) rfl (by norm_num)

/-- Counterexample for C3 as stated: in the fallback (Louvain failure) the
round-robin labels put nodes `0` and `2` in the same community, yet the
weight of the edge `(0, 2)` stays `3` instead of being doubled to `6`. -/
theorem c3_counterexample_fallback_no_reinforcement :
    List.lookup 0 (add_community_structure 2 none gC3 []).2 = some 0 ∧
    List.lookup 2 (add_community_structure 2 none gC3 []).2 = some 0 ∧
    wlookup (add_community_structure 2 none gC3 []).1.weights (0, 2) = some 3 ∧
    (3 : ℚ) ≠ 2 * 3 := by
  refine ⟨rfl, rfl, rfl, by norm_num⟩

theorem add_weights_structure (props : GraphProperties) (r : List ℚ) (g : Graph) :
    (add_weights props r g).edges = g.edges ∧
    (add_weights props r g).directed = g.directed ∧
    (add_weights props r g).nodes = g.nodes :=
  ⟨rfl, rfl, rfl⟩

theorem add_community_structure_structure (k : ℕ) (l : Option (List ℕ))
    (g : Graph) (pc : List (ℕ × ℕ)) :
    (add_community_structure k l g pc).1.edges = g.edges ∧
    (add_community_structure k l g pc).1.directed = g.directed ∧
    (add_community_structure k l g pc).1.nodes = g.nodes := by
  unfold add_community_structure
  split_ifs
  · exact ⟨rfl, rfl, rfl⟩
  · cases l <;> exact ⟨rfl, rfl, rfl⟩

theorem pre_stage_structure (props : GraphProperties) (r : List ℚ)
    (l : Option (List ℕ)) (g : Graph) :
    (if props.community_structure
      then add_community_structure props.num_communities l
        (if props.is_weighted then add_weights props r g else g) []
      else ((if props.is_weighted then add_weights props r g else g), [])).1.edges
        = g.edges ∧
    (if props.community_structure
      then add_community_structure props.num_communities l
        (if props.is_weighted then add_weights props r g else g) []
      else ((if props.is_weighted then add_weights props r g else g), [])).1.directed
        = g.directed ∧
    (if props.community_structure
      then add_community_structure props.num_communities l
        (if props.is_weighted then add_weights props r g else g) []
      else ((if props.is_weighted then add_weights props r g else g), [])).1.nodes
        = g.nodes := by
  have hw : (if props.is_weighted then add_weights props r g else g).edges = g.edges ∧
      (if props.is_weighted then add_weights props r g else g).directed = g.directed ∧
      (if props.is_weighted then add_weights props r g else g).nodes = g.nodes := by
    split_ifs
    · exact add_weights_structure props r g
    · exact ⟨rfl, rfl, rfl⟩
  by_cases hcs : props.community_structure = true
  · rw [if_pos hcs]
    have hc := add_community_structure_structure props.num_communities l
      (if props.is_weighted then add_weights props r g else g) []
    exact ⟨hc.1.trans hw.1, hc.2.1.trans hw.2.1, hc.2.2.trans hw.2.2⟩
  · rw [if_neg hcs]
    exact hw

theorem coerceDirection_structure_congr (f : Bool) (g1 g2 : Graph)
    (he : g1.edges = g2.edges) (hd : g1.directed = g2.directed)
    (hn : g1.nodes = g2.nodes) :
    (coerceDirection f g1).edges = (coerceDirection f g2).edges ∧
    (coerceDirection f g1).nodes = (coerceDirection f g2).nodes := by
  have hd1 := hd
  cases f <;> cases hd2 : g2.directed <;> rw [hd2] at hd1 <;>
    simp [coerceDirection, toDirectedG, toUndirectedG, hd1, hd2, he, hn]

/-- C1 (amended): with a set seed, the graph structure — node list and
edge list — is a deterministic function of `(seed, config)`: two calls
that agree on them produce the same nodes and edges whatever the state of
the global random source and whatever the Louvain call returns (the
directedness also agrees, both being the configured flag). -/
theorem c1_structure_deterministic_given_seed (gt : GraphType)
    (props : GraphProperties) (s : ℕ) (r1 r2 : List ℚ)
    (l1 l2 : Option (List ℕ)) (res1 res2 : Graph × List (ℕ × ℕ))
    (hseed : props.seed = some s)
    (h1 : generate_graph gt props r1 l1 = Except.ok res1)
    (h2 : generate_graph gt props r2 l2 = Except.ok res2) :
    res1.1.nodes = res2.1.nodes ∧ res1.1.edges = res2.1.edges ∧
    res1.1.directed = res2.1.directed := by
  unfold generate_graph at h1 h2
  have hstr1 : structStream props.seed r1 = seedStream s := by
    rw [hseed]
    rfl
  have hstr2 : structStream props.seed r2 = seedStream s := by
    rw [hseed]
    rfl
  rw [hstr1] at h1
  rw [hstr2] at h2
  cases hd : dispatchGenerate gt props (seedStream s) with
  | error e =>
      rw [hd] at h1
      exact absurd h1 (by simp)
  | ok g =>
      rw [hd] at h1 h2
      simp only [Except.ok.injEq] at h1 h2
      subst h1
      subst h2
      show (apply_properties props r1 l1 g).1.nodes
        = (apply_properties props r2 l2 g).1.nodes ∧ _ ∧ _
      unfold apply_properties
      have p1 := pre_stage_structure props r1 l1 g
      have p2 := pre_stage_structure props r2 l2 g
      have hcong := coerceDirection_structure_congr props.is_directed _ _
        (p1.1.trans p2.1.symm) (p1.2.1.trans p2.2.1.symm) (p1.2.2.trans p2.2.2.symm)
      refine ⟨hcong.2, hcong.1, ?_⟩
      rw [coerceDirection_directed, coerceDirection_directed]

/-- Witness for C1 (amended) at a concrete input: seed `7` on the
Erdős–Rényi model; two calls with different global random states and
different Louvain outcomes still agree on the edge list. -/
theorem c1_structure_deterministic_given_seed_witness :
    pSeeded.seed = some 7 ∧
    generate_graph GraphType.ERDOS_RENYI pSeeded [] none
      = Except.ok (apply_properties pSeeded [] none
          (ErdosRenyiGenerator.generate pSeeded (seedStream 7))) ∧
    generate_graph GraphType.ERDOS_RENYI pSeeded [1/2] (some [0, 0, 0])
      = Except.ok (apply_properties pSeeded [1/2] (some [0, 0, 0])
          (ErdosRenyiGenerator.generate pSeeded (seedStream 7))) ∧
    (apply_properties pSeeded [] none
        (ErdosRenyiGenerator.generate pSeeded (seedStream 7))).1.edges
      = (apply_properties pSeeded [1/2] (some [0, 0, 0])
          (ErdosRenyiGenerator.generate pSeeded (seedStream 7))).1.edges := by
  refine ⟨rfl, rfl, rfl, ?_⟩
  exact (c1_structure_deterministic_given_seed GraphType.ERDOS_RENYI pSeeded 7
    [] [1/2] none (some [0, 0, 0]) _ _ rfl rfl rfl).2.1

/-- Counterexample for C1 as stated: two calls with the identical
`(seed, config)` — seed `0`, weighted 2-node complete graph — but made at
different states of the global random source assign the single edge the
weights `2` and `3` respectively: the weight is not a function of
`(seed, config, edge)`. -/
theorem c1_counterexample_weights_not_seed_deterministic :
    pCexSeed.seed = some 0 ∧
    (match generate_graph GraphType.COMPLETE pCexSeed [2] none with
      | Except.ok p => wlookup p.1.weights (0, 1)
      | Except.error _ => none) = some 2 ∧
    (match generate_graph GraphType.COMPLETE pCexSeed [3] none with
      | Except.ok p => wlookup p.1.weights (0, 1)
      | Except.error _ => none) = some 3 ∧
    some (2:ℚ) ≠ some 3 := by
  refine ⟨rfl, rfl, rfl, by norm_num⟩

end GraphGen
